import Mathlib

/-!
Verification of the FocusFlow focus-aware scheduling engine against its
natural-language specification.

The repository's visible source is the React frontend
(`src/frontend/src/App.js`); the scheduling core (task parser, focus
profile store, scorer, scheduler, analytics aggregator) lives in the
backend, which is not part of the visible sources.  Definitions taken
from `App.js` cite their line numbers; definitions for the backend core
are modelled from the specification and say so in their doc comments.

Conventions of the embedding:
* timestamps are `Int` seconds since an arbitrary epoch;
* real-valued quantities (scores, profile values) are `ℚ`;
* strings are handled through their underlying `List Char`.
-/

namespace FocusFlow

/-- Task priority enumeration (spec §3). -/
inductive Priority where
  | low
  | medium
  | high
  | urgent
deriving DecidableEq, Repr

/-- Task type enumeration (spec §3). -/
inductive TaskType where
  | deep
  | shallow
deriving DecidableEq, Repr

/-- Task status enumeration (spec §3): `pending` or `completed`. -/
inductive Status where
  | pending
  | completed
deriving DecidableEq, Repr

/-- Focus-session status enumeration (spec §3). -/
inductive SessionStatus where
  | active
  | completed
  | cancelled
deriving DecidableEq, Repr

/-- Window of the day used by the focus profile (spec §4.2). -/
inductive DayWindow where
  | morning
  | afternoon
  | evening
deriving DecidableEq, Repr

/-- Task entity (spec §3).  `focus_score` is transient (recomputed by the
Scorer, never authoritative state), so it is not a field here. -/
structure Task where
  id : Nat
  owner : Nat
  title : String
  description : String
  due_at : Option Int
  priority : Priority
  task_type : TaskType
  estimated_duration_minutes : Nat
  status : Status
  created_at : Int
  completed_at : Option Int
deriving DecidableEq, Repr

/-- Focus session entity (spec §3).  `productivity` is the opaque
productivity score in [0,1] that fed the Focus Profile Store. -/
structure FocusSession where
  id : Nat
  owner : Nat
  task_id : Option Nat
  started_at : Int
  ended_at : Option Int
  sstatus : SessionStatus
  duration_minutes : Nat
  productivity : ℚ
deriving DecidableEq, Repr

/-- Per-user focus profile (spec §3): a smoothed productivity score for
each of the three daily windows. -/
structure FocusProfile where
  morning : ℚ
  afternoon : ℚ
  evening : ℚ
deriving DecidableEq, Repr

/-- Structured draft produced by the Task Parser (spec §4.1). -/
structure TaskDraft where
  title : String
  due_at : Option Int
  priority : Priority
  task_type : TaskType
  estimated_duration_minutes : Nat
deriving DecidableEq, Repr

/-- Rolling analytics view (spec §4.5); pure computed data, not persisted. -/
structure AnalyticsSnapshot where
  total_focus_minutes_7d : Nat
  completed_tasks_7d : Nat
  focus_sessions_count : Nat
  average_productivity_score : ℚ
deriving DecidableEq, Repr

/-! ### String utilities

The parser works case-insensitively on the character lists underlying
strings.  These helpers are structural-recursive so concrete inputs
evaluate by `decide`. -/

/-- Lower-cased character list of a string. -/
def lowerChars (s : String) : List Char :=
  s.data.map Char.toLower

/-- Character-list prefix test. -/
def isPrefixCL : List Char → List Char → Bool
  | [], _ => true
  | _ :: _, [] => false
  | a :: as, b :: bs => a == b && isPrefixCL as bs

/-- Substring test on character lists: does `needle` occur contiguously in
`haystack`? -/
def containsSub (needle : List Char) : List Char → Bool
  | [] => isPrefixCL needle []
  | c :: rest => isPrefixCL needle (c :: rest) || containsSub needle rest

/-- Case-insensitive phrase test: `kw` (given lower-case) occurs in `s`. -/
def hasPhrase (s : String) (kw : String) : Bool :=
  containsSub kw.data (lowerChars s)

/-- Splits a character list into maximal whitespace-free words.  `acc`
holds the current word reversed. -/
def wordsAux : List Char → List Char → List (List Char)
  | acc, [] => if acc.isEmpty then [] else [acc.reverse]
  | acc, c :: cs =>
    if c.isWhitespace then
      if acc.isEmpty then wordsAux [] cs else acc.reverse :: wordsAux [] cs
    else
      wordsAux (c :: acc) cs

/-- Whitespace-separated words of a string, as character lists. -/
def wordsOf (s : String) : List (List Char) :=
  wordsAux [] s.data

/-! ### Task Parser — priority detection

Modelled from the spec (§4.1): the backend fallback parser is not among
the visible sources.  "Priority: scan case-insensitively for urgency
markers. […] First matching rule wins, checked in the order
urgent → low → high → medium." -/

/-- Keywords that imply `urgent` priority (spec §4.1). -/
def urgentWords : List String := ["urgent", "asap", "critical", "emergency"]

/-- Keywords that imply `low` priority (spec §4.1). -/
def lowWords : List String := ["low priority", "whenever", "no rush"]

/-- Keywords that imply `high` priority (spec §4.1). -/
def highWords : List String := ["important", "high priority", "soon"]

/-- Modelled from the spec: the fallback parser's priority rules in the
order they are checked, urgent first, then low, then high (§4.1). -/
def priorityRules : List (List String × Priority) :=
  [(urgentWords, Priority.urgent), (lowWords, Priority.low),
    (highWords, Priority.high)]

/-- Modelled from the spec: priority detection of the fallback parser —
the first rule of `priorityRules` whose keyword list has a phrase present
in the text wins; otherwise `medium` (§4.1). -/
def detectPriority (s : String) : Priority :=
  match priorityRules.find? (fun rule => rule.1.any (hasPhrase s)) with
  | some rule => rule.2
  | none => Priority.medium

/-! Quick sanity checks of the parser model on the spec's examples. -/

example : detectPriority "Finish report by tomorrow 2pm - urgent" = Priority.urgent := by decide

example : detectPriority "Call client" = Priority.medium := by decide

example : detectPriority "important but whenever" = Priority.low := by decide

example : detectPriority "IMPORTANT: send soon" = Priority.high := by decide

/-! ### Task Parser — task type, duration, due time, title

All modelled from the spec (§4.1); the backend parser is not among the
visible sources. -/

/-- Cognitively demanding verbs whose presence makes a task `deep`
(spec §4.1). -/
def deepVerbs : List String :=
  ["write", "code", "design", "analyze", "plan", "report", "study"]

/-- Modelled from the spec: task-type detection — presence of a deep-work
verb means `deep`, otherwise `shallow` (§4.1). -/
def detectType (s : String) : TaskType :=
  if deepVerbs.any (hasPhrase s) then TaskType.deep else TaskType.shallow

/-- Accumulating decimal-digit parser; `none` on any non-digit. -/
def parseDigitsAux : Nat → List Char → Option Nat
  | acc, [] => some acc
  | acc, c :: cs =>
    if c.isDigit then parseDigitsAux (acc * 10 + (c.toNat - 48)) cs else none

/-- Parses a non-empty all-digit character list as a `Nat`. -/
def parseNatDigits? : List Char → Option Nat
  | [] => none
  | c :: cs => if c.isDigit then parseDigitsAux 0 (c :: cs) else none

/-- Minute-unit words of duration phrases. -/
def minuteUnits : List String := ["min", "mins", "minute", "minutes"]

/-- Hour-unit words of duration phrases. -/
def hourUnits : List String := ["hour", "hours", "hr", "hrs"]

/-- Minutes denoted by a lower-cased unit word, if it is one. -/
def unitMinutes? (w : List Char) : Option Nat :=
  if minuteUnits.any (fun u => u.data == w) then some 1
  else if hourUnits.any (fun u => u.data == w) then some 60
  else none

/-- Modelled from the spec: scans lower-cased words for an explicit
duration phrase — a positive number followed by a unit word, as in
"30 min" or "2 hours" (§4.1).  The data model requires
`estimated_duration_minutes` to be a positive integer (§3), so a zero
amount is not accepted. -/
def detectDurationWords : List (List Char) → Option Nat
  | [] => none
  | [_] => none
  | n :: u :: rest =>
    match parseNatDigits? n, unitMinutes? u with
    | some k, some m =>
      if 0 < k then some (k * m) else detectDurationWords (u :: rest)
    | _, _ => detectDurationWords (u :: rest)

/-- Modelled from the spec: estimated duration in minutes — an explicit
duration phrase if present, otherwise 60 for `deep` and 15 for `shallow`
(§4.1). -/
def detectDuration (s : String) (ty : TaskType) : Nat :=
  match detectDurationWords ((wordsOf s).map (List.map Char.toLower)) with
  | some m => m
  | none => if ty = TaskType.deep then 60 else 15

/-- Lower-cases a character list. -/
def lowerCL (cs : List Char) : List Char :=
  cs.map Char.toLower

/-- Suffix test on character lists. -/
def endsWith (sfx w : List Char) : Bool :=
  isPrefixCL sfx.reverse w.reverse

/-- Splits a character list at its first colon, if any. -/
def splitColon? : List Char → Option (List Char × List Char)
  | [] => none
  | c :: cs =>
    if c == ':' then some ([], cs)
    else
      match splitColon? cs with
      | some (a, b) => some (c :: a, b)
      | none => none

/-- Modelled from the spec: parses a lower-cased word as a clock time —
"2pm"-style meridiem forms or "14:00"-style 24-hour forms — returning
minutes after midnight (§4.1). -/
def parseClock? (w : List Char) : Option Nat :=
  match splitColon? w with
  | some (h, m) =>
    match parseNatDigits? h, parseNatDigits? m with
    | some hh, some mm =>
      if hh < 24 && mm < 60 then some (hh * 60 + mm) else none
    | _, _ => none
  | none =>
    if endsWith ['p', 'm'] w then
      match parseNatDigits? (w.dropLast.dropLast) with
      | some hh => if 1 ≤ hh && hh ≤ 12 then some ((hh % 12 + 12) * 60) else none
      | none => none
    else if endsWith ['a', 'm'] w then
      match parseNatDigits? (w.dropLast.dropLast) with
      | some hh => if 1 ≤ hh && hh ≤ 12 then some ((hh % 12) * 60) else none
      | none => none
    else none

/-- First clock time mentioned in the text, in minutes after midnight. -/
def detectClock? (s : String) : Option Nat :=
  ((wordsOf s).map lowerCL).findSome? parseClock?

/-- Weekday names, Monday first. -/
def weekdayNames : List String :=
  ["monday", "tuesday", "wednesday", "thursday", "friday", "saturday", "sunday"]

/-- Index of the first listed phrase present in the text, if any. -/
def findIdxAux : Nat → List String → String → Option Nat
  | _, [], _ => none
  | i, w :: ws, s => if hasPhrase s w then some i else findIdxAux (i + 1) ws s

/-- First weekday name mentioned in the text (0 = Monday). -/
def detectWeekday? (s : String) : Option Nat :=
  findIdxAux 0 weekdayNames s

/-- Day number of a timestamp (floor division; 86400 seconds per day). -/
def dayIndex (t : Int) : Int :=
  Int.fdiv t 86400

/-- Weekday of a day number, 0 = Monday (day 0 of the epoch is a
Thursday). -/
def weekdayOfDay (d : Int) : Int :=
  Int.emod (d + 3) 7

/-- Modelled from the spec: due-time detection — a date phrase ("today",
"tomorrow", or a weekday name) combined with a clock time; a date phrase
alone defaults to 23:59 of that date; a bare weekday resolves to its next
occurrence counting today, and a bare clock time to today, choices the
spec leaves open (§4.1).  Result is a timestamp in seconds. -/
def detectDue? (s : String) (now : Int) : Option Int :=
  let day? : Option Int :=
    if hasPhrase s "tomorrow" then some (dayIndex now + 1)
    else if hasPhrase s "today" then some (dayIndex now)
    else
      match detectWeekday? s with
      | some target =>
        some (dayIndex now +
          Int.emod ((target : Int) - weekdayOfDay (dayIndex now) + 7) 7)
      | none => none
  match day?, detectClock? s with
  | some d, some m => some (d * 86400 + (m : Int) * 60)
  | some d, none => some (d * 86400 + 86340)
  | none, some m => some (dayIndex now * 86400 + (m : Int) * 60)
  | none, none => none

/-- Removes the first case-insensitive occurrence of `needle` from a
character list. -/
def removeSub (needle : List Char) : List Char → List Char
  | [] => []
  | c :: rest =>
    if isPrefixCL needle (lowerCL (c :: rest)) then
      List.drop (needle.length - 1) rest
    else c :: removeSub needle rest

/-- Rejoins words with single spaces. -/
def joinWords : List (List Char) → List Char
  | [] => []
  | [w] => w
  | w :: ws => w ++ ' ' :: joinWords ws

/-- The text with every priority keyword and date word that is present
removed (case-insensitively). -/
def strippedChars (s : String) : List Char :=
  ((urgentWords ++ lowWords ++ highWords ++ ["today", "tomorrow"] ++
      weekdayNames).filter (hasPhrase s)).foldl
    (fun cs kw => removeSub kw.data cs) s.data

/-- The words of the stripped text, with clock-time tokens dropped. -/
def titleWords (s : String) : List (List Char) :=
  (wordsAux [] (strippedChars s)).filter
    (fun w => (parseClock? (lowerCL w)).isNone)

/-- Modelled from the spec: the title is the input text with recognized
time/priority phrases stripped; if stripping empties the string the
original raw text is used verbatim (§4.1). -/
def titleOf (s : String) : String :=
  if (joinWords (titleWords s)).isEmpty then s
  else String.mk (joinWords (titleWords s))

/-- Modelled from the spec: the Task Parser's deterministic fallback,
`parse(rawText, now) → TaskDraft` (§4.1).  Each field is computed by its
own detector, independently of the others. -/
def parse (s : String) (now : Int) : TaskDraft :=
  let ty := detectType s
  { title := titleOf s
    due_at := detectDue? s now
    priority := detectPriority s
    task_type := ty
    estimated_duration_minutes := detectDuration s ty }

example : (parse "Call client" 0).priority = Priority.medium := by decide

example : (parse "Call client" 0).task_type = TaskType.shallow := by decide

example : (parse "Call client" 0).estimated_duration_minutes = 15 := by decide

example : (parse "Call client" 0).due_at = none := by decide

example : (parse "Call client" 0).title = "Call client" := by decide

example :
    (parse "Finish report by tomorrow 2pm - urgent" 0).priority
      = Priority.urgent := by decide

example :
    (parse "Finish report by tomorrow 2pm - urgent" 0).task_type
      = TaskType.deep := by decide

example :
    (parse "Finish report by tomorrow 2pm - urgent" 0).estimated_duration_minutes
      = 60 := by decide

example :
    (parse "Finish report by tomorrow 2pm - urgent" 0).due_at
      = some (86400 + 14 * 3600) := by decide

/-! ### Focus Profile Store (modelled from spec §4.2) -/

/-- Modelled from the spec: the neutral default profile, 0.5 for all three
windows (§4.2). -/
def defaultProfile : FocusProfile :=
  { morning := 1/2, afternoon := 1/2, evening := 1/2 }

/-- Fixed EMA smoothing factor α = 0.3 (spec §4.2). -/
def smoothing : ℚ := 3/10

/-- Modelled from the spec: `observe(owner, windowOfDay, v)` updates the
matching bucket with the exponential moving average
`new = α·observed + (1−α)·old` (§4.2). -/
def observe (p : FocusProfile) (w : DayWindow) (v : ℚ) : FocusProfile :=
  match w with
  | DayWindow.morning =>
    { p with morning := smoothing * v + (1 - smoothing) * p.morning }
  | DayWindow.afternoon =>
    { p with afternoon := smoothing * v + (1 - smoothing) * p.afternoon }
  | DayWindow.evening =>
    { p with evening := smoothing * v + (1 - smoothing) * p.evening }

/-- A finite sequence of `observe` calls, applied in order. -/
def observeAll (p : FocusProfile) (obs : List (DayWindow × ℚ)) : FocusProfile :=
  obs.foldl (fun q o => observe q o.1 o.2) p

/-- Modelled from the spec: reading a profile for a user with no
observations yet returns the neutral default rather than failing
(§4.2). -/
def readProfile (store : Nat → Option FocusProfile) (o : Nat) : FocusProfile :=
  (store o).getD defaultProfile

/-- All three profile values lie in [0,1] (invariant of spec §3). -/
def profileInRange (p : FocusProfile) : Prop :=
  0 ≤ p.morning ∧ p.morning ≤ 1 ∧ 0 ≤ p.afternoon ∧ p.afternoon ≤ 1 ∧
    0 ≤ p.evening ∧ p.evening ≤ 1

/-! ### Scorer (modelled from spec §4.3) -/

/-- Clamps a rational into [0,1]. -/
def clamp01 (x : ℚ) : ℚ :=
  max 0 (min 1 x)

/-- Modelled from the spec: urgency signal — with a due date,
`clamp(1 − hoursRemaining/72, 0, 1)`; without one, 0 (§4.3).  Timestamps
are seconds, so `hoursRemaining/72 = (due − now)/259200`. -/
def urgency (due : Option Int) (now : Int) : ℚ :=
  match due with
  | none => 0
  | some d => clamp01 (1 - ((d - now : Int) : ℚ) / 259200)

/-- Fixed priority weights (spec §4.3). -/
def priorityWeight : Priority → ℚ
  | Priority.urgent => 1
  | Priority.high => 3/4
  | Priority.medium => 1/2
  | Priority.low => 1/4

/-- The daily window containing a timestamp: [05:00,12:00) = morning,
[12:00,18:00) = afternoon, else evening (spec §4.2). -/
def windowOf (t : Int) : DayWindow :=
  let h := Int.emod (Int.fdiv t 3600) 24
  if 5 ≤ h ∧ h < 12 then DayWindow.morning
  else if 12 ≤ h ∧ h < 18 then DayWindow.afternoon
  else DayWindow.evening

/-- The profile's value for a given window. -/
def profileAt (p : FocusProfile) : DayWindow → ℚ
  | DayWindow.morning => p.morning
  | DayWindow.afternoon => p.afternoon
  | DayWindow.evening => p.evening

/-- Modelled from the spec: focus alignment — the profile's score for the
current window for `deep` tasks, a flat 0.5 for `shallow` tasks (§4.3). -/
def focusAlign (ty : TaskType) (p : FocusProfile) (now : Int) : ℚ :=
  if ty = TaskType.deep then profileAt p (windowOf now) else 1/2

/-- Modelled from the spec: the Scorer — weighted sum 0.4·urgency +
0.35·priority + 0.25·focus-alignment (§4.3). -/
def score (t : Task) (p : FocusProfile) (now : Int) : ℚ :=
  2/5 * urgency t.due_at now + 7/20 * priorityWeight t.priority +
    1/4 * focusAlign t.task_type p now

/-! ### Scheduler (modelled from spec §4.4) -/

/-- Strict "earlier due date" order on optional due dates: among set dates
the earlier is smaller, and a set date precedes an unset one (spec §4.4:
"unset due dates sort last"). -/
def dueLT : Option Int → Option Int → Prop
  | some a, some b => a < b
  | some _, none => True
  | none, _ => False

instance instDecDueLT : (x y : Option Int) → Decidable (dueLT x y)
  | some a, some b => inferInstanceAs (Decidable (a < b))
  | some _, none => inferInstanceAs (Decidable True)
  | none, some _ => inferInstanceAs (Decidable False)
  | none, none => inferInstanceAs (Decidable False)

/-- Modelled from the spec: the Scheduler's ordering — descending score,
ties broken by earlier `due_at` (unset last), then earlier `created_at`
(§4.4).  `taskBefore p now a b` says `a` may be placed no later than
`b`. -/
def taskBefore (p : FocusProfile) (now : Int) (a b : Task) : Prop :=
  score b p now < score a p now ∨
    (score a p now = score b p now ∧
      (dueLT a.due_at b.due_at ∨
        (a.due_at = b.due_at ∧ a.created_at ≤ b.created_at)))

instance instDecTaskBefore (p : FocusProfile) (now : Int) :
    DecidableRel (taskBefore p now) := fun a b => by
  unfold taskBefore
  infer_instance

/-- Frontend (App.js line 452): the pending task set,
`tasks.filter(task => task.status === 'pending')`. -/
def pendingTasks (tasks : List Task) : List Task :=
  tasks.filter (fun t => t.status == Status.pending)

/-- Modelled from the spec: `schedule(tasks, profile, now)` — restrict to
the pending set and sort by the Scheduler's ordering (§4.4). -/
def schedule (p : FocusProfile) (now : Int) (tasks : List Task) : List Task :=
  List.insertionSort (taskBefore p now) (pendingTasks tasks)

/-! ### Task lifecycle (spec §4.4 state machine) -/

/-- Modelled from the spec: completing a task, the only status transition
of the state machine `pending --(complete)--> completed` (§4.4, §8). -/
def completeTask (t : Task) (now : Int) : Task :=
  { t with status := Status.completed, completed_at := some now }

/-- Update operations a task can undergo after creation (spec §6:
`updateTask` may change priority, due date, title, or complete the
task). -/
inductive TaskEvent where
  | complete (now : Int)
  | setPriority (p : Priority)
  | setDueAt (d : Option Int)
  | setTitle (s : String)
deriving Repr

/-- Modelled from the spec: applying one update.  `completed` is terminal
(§4.4), so no event sets a task's status back to `pending`. -/
def applyEvent (t : Task) : TaskEvent → Task
  | TaskEvent.complete now =>
    if t.status = Status.pending then completeTask t now else t
  | TaskEvent.setPriority pr => { t with priority := pr }
  | TaskEvent.setDueAt d => { t with due_at := d }
  | TaskEvent.setTitle s => { t with title := s }

/-- A finite sequence of updates, applied in order. -/
def applyEvents (t : Task) (evs : List TaskEvent) : Task :=
  evs.foldl applyEvent t

/-! ### Frontend dashboard state (`App.js`, `Dashboard` component) -/

/-- The `Dashboard` component's state hooks (App.js lines 367–374):
`tasks`, `newTask`, `analytics`, `focusPatterns`, `darkMode`,
`activeTab`. -/
structure DashboardState where
  tasks : List Task
  newTask : String
  analytics : Option AnalyticsSnapshot
  focusPatterns : Option FocusProfile
  darkMode : Bool
  activeTab : String
deriving DecidableEq, Repr

/-- JavaScript's `!s.trim()` test (App.js line 411): true iff the string
is empty or all whitespace. -/
def blank (s : String) : Bool :=
  s.data.all Char.isWhitespace

/-- Frontend `addTask` (App.js lines 409–424): with a blank input it
returns without doing anything; otherwise it issues the create request
and prepends the response to the displayed list
(`setTasks([response.data, ...tasks])`, line 418) and clears the input.
The boolean reports whether the create request was issued. -/
def addTask (st : DashboardState) (response : Task) : DashboardState × Bool :=
  if blank st.newTask then (st, false)
  else ({ st with tasks := response :: st.tasks, newTask := "" }, true)

/-- Frontend "Focus Level" indicator (App.js lines 714–731): the rendered
percentage is the literal `85%`, independent of all state. -/
def focusLevelDisplay (_st : DashboardState) : Nat :=
  85

/-- Frontend "Smart Scheduled Tasks" view (App.js line 579):
`pendingTasks.slice(0, 8)`. -/
def displayedTasks (tasks : List Task) : List Task :=
  (pendingTasks tasks).take 8

/-! ### Backend task creation (modelled from spec §6, §7) -/

/-- Creation-time error taxonomy entry (spec §7): InvalidInput. -/
inductive CreateError where
  | invalidInput
deriving DecidableEq, Repr

/-- Builds the persisted task from a parsed draft. -/
def buildTask (o : Nat) (newId : Nat) (d : TaskDraft) (now : Int) : Task :=
  { id := newId
    owner := o
    title := d.title
    description := ""
    due_at := d.due_at
    priority := d.priority
    task_type := d.task_type
    estimated_duration_minutes := d.estimated_duration_minutes
    status := Status.pending
    created_at := now
    completed_at := none }

/-- Modelled from the spec: `createTask(owner, rawText)` — empty raw text
is rejected as InvalidInput before reaching the Scheduler and nothing is
mutated (§7); otherwise the parsed task is persisted, the Scheduler
re-runs over the full pending set including the new task, and the new
ordered task list is returned (§6). -/
def createTask (o : Nat) (raw : String) (now : Int) (newId : Nat)
    (existing : List Task) (p : FocusProfile) :
    Except CreateError (Task × List Task) :=
  if blank raw then Except.error CreateError.invalidInput
  else
    let t := buildTask o newId (parse raw now) now
    Except.ok (t, schedule p now (t :: existing))

/-! ### Analytics Aggregator (modelled from spec §4.5) -/

/-- Modelled from the spec: a session counts toward the 7-day window iff
it belongs to the owner, is completed, and its `ended_at` lies in
`[now − 7·24h, now]` — both endpoints included (§4.5, §8). -/
def sessionCounted (o : Nat) (now : Int) (s : FocusSession) : Bool :=
  s.owner == o && s.sstatus == SessionStatus.completed &&
    (match s.ended_at with
     | some t => decide (now - 7 * 86400 ≤ t) && decide (t ≤ now)
     | none => false)

/-- Modelled from the spec: a task counts toward `completed_tasks_7d` iff
its `completed_at` lies in the same trailing window (§4.5). -/
def taskCompletedInWindow (o : Nat) (now : Int) (t : Task) : Bool :=
  t.owner == o &&
    (match t.completed_at with
     | some c => decide (now - 7 * 86400 ≤ c) && decide (c ≤ now)
     | none => false)

/-- Modelled from the spec: `summarize(owner, history, now)` — the
AnalyticsSnapshot over the trailing 7×24h window measured from `now`
(§4.5). -/
def summarize (o : Nat) (sessions : List FocusSession) (tasks : List Task)
    (now : Int) : AnalyticsSnapshot :=
  let ws := sessions.filter (sessionCounted o now)
  { total_focus_minutes_7d := (ws.map FocusSession.duration_minutes).sum
    completed_tasks_7d := (tasks.filter (taskCompletedInWindow o now)).length
    focus_sessions_count := ws.length
    average_productivity_score :=
      if ws.length = 0 then 0
      else (ws.map FocusSession.productivity).sum / (ws.length : ℚ) }

/-! ### Properties of the scheduler ordering -/

/-- Non-strict version of `dueLT`: earlier-or-equal due date. -/
def dueLE (x y : Option Int) : Prop :=
  dueLT x y ∨ x = y

theorem dueLT_total (x y : Option Int) : dueLT x y ∨ dueLT y x ∨ x = y := by
  cases x with
  | none =>
    cases y with
    | none => exact Or.inr (Or.inr rfl)
    | some b => exact Or.inr (Or.inl trivial)
  | some a =>
    cases y with
    | none => exact Or.inl trivial
    | some b =>
      rcases lt_trichotomy a b with h | h | h
      · exact Or.inl h
      · exact Or.inr (Or.inr (by rw [h]))
      · exact Or.inr (Or.inl h)

theorem dueLT_trans {x y z : Option Int} (h1 : dueLT x y) (h2 : dueLT y z) :
    dueLT x z := by
  cases x <;> cases y <;> cases z <;>
    first
      | exact h1.elim
      | exact h2.elim
      | trivial
      | exact lt_trans h1 h2

theorem dueLT_irrefl (x : Option Int) : ¬dueLT x x := by
  cases x with
  | none => exact fun h => h.elim
  | some a => exact lt_irrefl a

theorem taskBefore_total (p : FocusProfile) (now : Int) (a b : Task) :
    taskBefore p now a b ∨ taskBefore p now b a := by
  unfold taskBefore
  rcases lt_trichotomy (score a p now) (score b p now) with h | h | h
  · exact Or.inr (Or.inl h)
  · rcases dueLT_total a.due_at b.due_at with hd | hd | hd
    · exact Or.inl (Or.inr ⟨h, Or.inl hd⟩)
    · exact Or.inr (Or.inr ⟨h.symm, Or.inl hd⟩)
    · rcases le_total a.created_at b.created_at with hc | hc
      · exact Or.inl (Or.inr ⟨h, Or.inr ⟨hd, hc⟩⟩)
      · exact Or.inr (Or.inr ⟨h.symm, Or.inr ⟨hd.symm, hc⟩⟩)
  · exact Or.inl (Or.inl h)

instance instTotalTaskBefore (p : FocusProfile) (now : Int) :
    IsTotal Task (taskBefore p now) :=
  ⟨taskBefore_total p now⟩

theorem taskBefore_trans (p : FocusProfile) (now : Int) {a b c : Task}
    (hab : taskBefore p now a b) (hbc : taskBefore p now b c) :
    taskBefore p now a c := by
  rcases hab with h1 | ⟨e1, d1⟩
  · rcases hbc with h2 | ⟨e2, d2⟩
    · exact Or.inl (lt_trans h2 h1)
    · exact Or.inl (e2 ▸ h1)
  · rcases hbc with h2 | ⟨e2, d2⟩
    · exact Or.inl (by rw [e1]; exact h2)
    · refine Or.inr ⟨e1.trans e2, ?_⟩
      rcases d1 with hd1 | ⟨q1, c1⟩
      · rcases d2 with hd2 | ⟨q2, c2⟩
        · exact Or.inl (dueLT_trans hd1 hd2)
        · exact Or.inl (q2 ▸ hd1)
      · rcases d2 with hd2 | ⟨q2, c2⟩
        · exact Or.inl (by rw [q1]; exact hd2)
        · exact Or.inr ⟨q1.trans q2, le_trans c1 c2⟩

instance instTransTaskBefore (p : FocusProfile) (now : Int) :
    IsTrans Task (taskBefore p now) :=
  ⟨fun _ _ _ => taskBefore_trans p now⟩

/-- Mutual `taskBefore` forces identical sort keys. -/
theorem taskBefore_antisymm_key (p : FocusProfile) (now : Int) {a b : Task}
    (h1 : taskBefore p now a b) (h2 : taskBefore p now b a) :
    score a p now = score b p now ∧ a.due_at = b.due_at ∧
      a.created_at = b.created_at := by
  rcases h1 with hlt1 | ⟨e1, d1⟩
  · rcases h2 with hlt2 | ⟨e2, d2⟩
    · exact absurd hlt1 (lt_asymm hlt2)
    · exact absurd hlt1 (e2 ▸ lt_irrefl _)
  · rcases h2 with hlt2 | ⟨e2, d2⟩
    · exact absurd hlt2 (e1 ▸ lt_irrefl _)
    · refine ⟨e1, ?_⟩
      rcases d1 with hd1 | ⟨q1, c1⟩
      · rcases d2 with hd2 | ⟨q2, c2⟩
        · exact absurd (dueLT_trans hd1 hd2) (dueLT_irrefl _)
        · exact absurd (q2 ▸ hd1) (dueLT_irrefl _)
      · rcases d2 with hd2 | ⟨q2, c2⟩
        · exact absurd (q1 ▸ hd2) (dueLT_irrefl _)
        · exact ⟨q1, le_antisymm c1 c2⟩

/-- Two sorted lists that are permutations of one another coincide,
provided the order is antisymmetric on the elements involved. -/
theorem sorted_perm_eq_of_antisymmOn {α : Type} {r : α → α → Prop} :
    ∀ {l₁ l₂ : List α}, l₁.Perm l₂ → List.Sorted r l₁ → List.Sorted r l₂ →
      (∀ a ∈ l₁, ∀ b ∈ l₁, r a b → r b a → a = b) → l₁ = l₂ := by
  intro l₁
  induction l₁ with
  | nil =>
    intro l₂ hp _ _ _
    exact hp.nil_eq
  | cons a t ih =>
    intro l₂ hp hs₁ hs₂ anti
    cases l₂ with
    | nil => exact absurd hp.symm.nil_eq (by simp)
    | cons b t₂ =>
      have hab : a = b := by
        by_cases h : a = b
        · exact h
        · have ha2 : a ∈ b :: t₂ := hp.mem_iff.mp (List.mem_cons_self a t)
          have hb1 : b ∈ a :: t := hp.mem_iff.mpr (List.mem_cons_self b t₂)
          have ha2' : a ∈ t₂ := by
            rcases List.mem_cons.mp ha2 with h' | h'
            · exact absurd h' h
            · exact h'
          have hb1' : b ∈ t := by
            rcases List.mem_cons.mp hb1 with h' | h'
            · exact absurd h'.symm h
            · exact h'
          have rab : r a b := List.rel_of_sorted_cons hs₁ b hb1'
          have rba : r b a := List.rel_of_sorted_cons hs₂ a ha2'
          exact anti a (List.mem_cons_self a t) b hb1 rab rba
      subst hab
      have hp' : t.Perm t₂ := hp.cons_inv
      have hrec := ih hp' hs₁.of_cons hs₂.of_cons
        (fun x hx y hy hxy hyx =>
          anti x (List.mem_cons_of_mem _ hx) y (List.mem_cons_of_mem _ hy) hxy hyx)
      rw [hrec]

/-- The schedule is sorted by the Scheduler's ordering. -/
theorem schedule_sorted (p : FocusProfile) (now : Int) (ts : List Task) :
    List.Sorted (taskBefore p now) (schedule p now ts) :=
  List.sorted_insertionSort (taskBefore p now) (pendingTasks ts)

/-- The schedule is a permutation of the pending set. -/
theorem schedule_perm (p : FocusProfile) (now : Int) (ts : List Task) :
    (schedule p now ts).Perm (pendingTasks ts) :=
  List.perm_insertionSort (taskBefore p now) (pendingTasks ts)

/-! ### Claim C3 — fallback priority rules and their checking order -/

/-- Claim C3: for every input string, the fallback parser assigns priority
by a case-insensitive scan whose rules are checked in the order
urgent → low → high → medium: an urgent keyword yields `urgent`; otherwise
a low keyword yields `low`; otherwise a high keyword yields `high`;
otherwise `medium`. -/
theorem C3_priority_rule_order (s : String) :
    detectPriority s =
      if urgentWords.any (hasPhrase s) then Priority.urgent
      else if lowWords.any (hasPhrase s) then Priority.low
      else if highWords.any (hasPhrase s) then Priority.high
      else Priority.medium := by
  unfold detectPriority priorityRules
  cases hu : urgentWords.any (hasPhrase s) <;>
    cases hl : lowWords.any (hasPhrase s) <;>
      cases hh : highWords.any (hasPhrase s) <;>
        simp [List.find?, hu, hl, hh]

/-! ### Claim C4 — the parser is total, with defaults and independent
fields -/

theorem mk_ne_empty {t : List Char} (ht : t ≠ []) : String.mk t ≠ "" :=
  fun h => ht (congrArg String.data h)

theorem titleOf_ne_empty {s : String} (hs : s ≠ "") : titleOf s ≠ "" := by
  unfold titleOf
  split
  · exact hs
  · rename_i h
    exact mk_ne_empty (by simpa using h)

theorem unitMinutes?_pos {w : List Char} {m : Nat}
    (h : unitMinutes? w = some m) : 0 < m := by
  unfold unitMinutes? at h
  split at h
  · simp only [Option.some.injEq] at h
    omega
  · split at h
    · simp only [Option.some.injEq] at h
      omega
    · exact absurd h (by simp)

theorem detectDurationWords_pos :
    ∀ (ws : List (List Char)) {m : Nat}, detectDurationWords ws = some m → 0 < m
  | [] => by intro h; simp [detectDurationWords] at h
  | [_] => by intro h; simp [detectDurationWords] at h
  | n :: u :: rest => by
    intro h
    unfold detectDurationWords at h
    cases hn : parseNatDigits? n with
    | none =>
      simp only [hn] at h
      exact detectDurationWords_pos (u :: rest) h
    | some k =>
      cases hu : unitMinutes? u with
      | none =>
        simp only [hn, hu] at h
        exact detectDurationWords_pos (u :: rest) h
      | some mu =>
        simp only [hn, hu] at h
        split at h
        · simp only [Option.some.injEq] at h
          subst h
          exact Nat.mul_pos (by assumption) (unitMinutes?_pos hu)
        · exact detectDurationWords_pos (u :: rest) h

theorem detectDuration_pos (s : String) (ty : TaskType) :
    0 < detectDuration s ty := by
  unfold detectDuration
  cases hd : detectDurationWords ((wordsOf s).map (List.map Char.toLower)) with
  | none =>
    simp only [hd]
    split <;> omega
  | some m =>
    simp only [hd]
    exact detectDurationWords_pos _ hd

/-- Claim C4: `parse(rawText, now)` is total and deterministic — a pure
function; for every non-empty string it returns a TaskDraft with every
field populated (title falls back to the raw text rather than becoming
empty, the duration default keeps the field positive) and each field is
computed by its own detector, so failure to detect one field never
prevents extraction of the others. -/
theorem C4_parse_total (s : String) (now : Int) (hs : s ≠ "") :
    (parse s now).title ≠ "" ∧
    0 < (parse s now).estimated_duration_minutes ∧
    (parse s now).title = titleOf s ∧
    (parse s now).due_at = detectDue? s now ∧
    (parse s now).priority = detectPriority s ∧
    (parse s now).task_type = detectType s ∧
    (parse s now).estimated_duration_minutes
      = detectDuration s (detectType s) :=
  ⟨titleOf_ne_empty hs, detectDuration_pos s (detectType s), rfl, rfl, rfl,
    rfl, rfl⟩

/-- Witness for C4 at the spec's own example input "Call client". -/
theorem C4_parse_total_witness :
    (parse "Call client" 5).title ≠ "" ∧
    0 < (parse "Call client" 5).estimated_duration_minutes ∧
    (parse "Call client" 5).title = titleOf "Call client" ∧
    (parse "Call client" 5).due_at = detectDue? "Call client" 5 ∧
    (parse "Call client" 5).priority = detectPriority "Call client" ∧
    (parse "Call client" 5).task_type = detectType "Call client" ∧
    (parse "Call client" 5).estimated_duration_minutes
      = detectDuration "Call client" (detectType "Call client") :=
  C4_parse_total "Call client" 5 (by decide)

/-! ### Claim C5 — focus-profile bounds and neutral default -/

theorem observe_inRange (p : FocusProfile) (w : DayWindow) (v : ℚ)
    (hp : profileInRange p) (h0 : 0 ≤ v) (h1 : v ≤ 1) :
    profileInRange (observe p w v) := by
  obtain ⟨m0, m1, a0, a1, e0, e1⟩ := hp
  cases w with
  | morning =>
    exact ⟨by unfold observe smoothing; simp only; linarith,
      by unfold observe smoothing; simp only; linarith, a0, a1, e0, e1⟩
  | afternoon =>
    exact ⟨m0, m1, by unfold observe smoothing; simp only; linarith,
      by unfold observe smoothing; simp only; linarith, e0, e1⟩
  | evening =>
    exact ⟨m0, m1, a0, a1, by unfold observe smoothing; simp only; linarith,
      by unfold observe smoothing; simp only; linarith⟩

theorem observeAll_inRange (obs : List (DayWindow × ℚ)) (p : FocusProfile)
    (hp : profileInRange p) (h : ∀ o ∈ obs, 0 ≤ o.2 ∧ o.2 ≤ 1) :
    profileInRange (observeAll p obs) := by
  induction obs generalizing p with
  | nil => exact hp
  | cons o rest ih =>
    have ho := h o (List.mem_cons_self o rest)
    exact ih (observe p o.1 o.2) (observe_inRange p o.1 o.2 hp ho.1 ho.2)
      (fun o2 ho2 => h o2 (List.mem_cons_of_mem o ho2))

/-- Claim C5: after any finite sequence of `observe` calls with
productivity inputs in [0,1], every focus-profile value stays in [0,1];
and a user with no recorded observations reads the profile
`{morning: 0.5, afternoon: 0.5, evening: 0.5}` rather than a failure. -/
theorem C5_profile_bounds (obs : List (DayWindow × ℚ))
    (h : ∀ o ∈ obs, 0 ≤ o.2 ∧ o.2 ≤ 1)
    (store : Nat → Option FocusProfile) (u : Nat) (hu : store u = none) :
    profileInRange (observeAll defaultProfile obs) ∧
      readProfile store u
        = { morning := 1/2, afternoon := 1/2, evening := 1/2 } := by
  constructor
  · exact observeAll_inRange obs defaultProfile
      (by unfold defaultProfile profileInRange; norm_num) h
  · rw [readProfile, hu]
    rfl

/-- Witness for C5: one morning observation of productivity 1, and a
store with no profile for the user. -/
theorem C5_profile_bounds_witness :
    profileInRange (observeAll defaultProfile [(DayWindow.morning, 1)]) ∧
      readProfile (fun _ => none) 0
        = { morning := 1/2, afternoon := 1/2, evening := 1/2 } :=
  C5_profile_bounds [(DayWindow.morning, 1)]
    (by
      intro o ho
      simp only [List.mem_singleton] at ho
      subst ho
      exact ⟨by norm_num, by norm_num⟩)
    (fun _ => none) 0 rfl

/-! ### Claim C9 — the "Focus Level" indicator is a constant -/

/-- Claim C9: the dashboard's "Focus Level" indicator renders the constant
85% in every state; its output is identical across any two states, so it
carries no information about the user's data. -/
theorem C9_focus_level_constant :
    (∀ st : DashboardState, focusLevelDisplay st = 85) ∧
      ∀ st1 st2 : DashboardState,
        focusLevelDisplay st1 = focusLevelDisplay st2 :=
  ⟨fun _ => rfl, fun _ _ => rfl⟩

/-! ### Claim C6 — completion is terminal and completed tasks never
reappear in the schedule -/

theorem applyEvent_keeps_completed (t : Task) (e : TaskEvent)
    (h : t.status = Status.completed) :
    (applyEvent t e).status = Status.completed := by
  cases e with
  | complete now => simp [applyEvent, h]
  | setPriority pr => exact h
  | setDueAt d => exact h
  | setTitle s => exact h

theorem applyEvents_keeps_completed (evs : List TaskEvent) (t : Task)
    (h : t.status = Status.completed) :
    (applyEvents t evs).status = Status.completed := by
  induction evs generalizing t with
  | nil => exact h
  | cons e rest ih =>
    exact ih (applyEvent t e) (applyEvent_keeps_completed t e h)

theorem completed_not_pending_mem (t : Task) (h : t.status = Status.completed)
    (ts : List Task) : t ∉ pendingTasks ts := by
  intro hmem
  have h2 : (t.status == Status.pending) = true :=
    (List.mem_filter.mp hmem).2
  rw [h] at h2
  exact absurd h2 (by decide)

theorem completed_not_in_schedule (t : Task) (h : t.status = Status.completed)
    (p : FocusProfile) (now : Int) (ts : List Task) :
    t ∉ schedule p now ts := fun hmem =>
  completed_not_pending_mem t h ts ((schedule_perm p now ts).mem_iff.mp hmem)

/-- Claim C6: completing a task sets `status = completed` and a non-null
`completed_at`; the completed status is terminal under every sequence of
subsequent updates; and a completed task appears in no pending set and no
scheduling output. -/
theorem C6_completion_terminal (t : Task) (now : Int) (evs : List TaskEvent)
    (ts : List Task) (p : FocusProfile) (now2 : Int) :
    (completeTask t now).status = Status.completed ∧
    (completeTask t now).completed_at = some now ∧
    (applyEvents (completeTask t now) evs).status = Status.completed ∧
    applyEvents (completeTask t now) evs ∉ pendingTasks ts ∧
    applyEvents (completeTask t now) evs ∉ schedule p now2 ts :=
  ⟨rfl, rfl, applyEvents_keeps_completed evs _ rfl,
    completed_not_pending_mem _ (applyEvents_keeps_completed evs _ rfl) ts,
    completed_not_in_schedule _ (applyEvents_keeps_completed evs _ rfl) p
      now2 ts⟩

/-! ### Claim C7 — blank task text is rejected and mutates nothing -/

/-- Claim C7: task creation with empty or whitespace-only raw text is
rejected before reaching the Scheduler and mutates nothing: the frontend
`addTask` returns the state unchanged without issuing the create request,
and the backend `createTask` returns InvalidInput without producing a
task or a schedule. -/
theorem C7_blank_rejected (st : DashboardState) (resp : Task)
    (h : blank st.newTask = true) (o : Nat) (now : Int) (newId : Nat)
    (existing : List Task) (p : FocusProfile) :
    addTask st resp = (st, false) ∧
      createTask o st.newTask now newId existing p
        = Except.error CreateError.invalidInput := by
  constructor
  · unfold addTask
    rw [if_pos h]
  · unfold createTask
    rw [if_pos h]

/-- A fixed sample task used by concrete witnesses. -/
def task0 : Task :=
  { id := 0
    owner := 0
    title := "t0"
    description := ""
    due_at := none
    priority := Priority.medium
    task_type := TaskType.shallow
    estimated_duration_minutes := 15
    status := Status.pending
    created_at := 0
    completed_at := none }

/-- Sample tasks distinguished by id. -/
def taskN (n : Nat) : Task :=
  { task0 with id := n }

/-- A dashboard state with whitespace-only task input. -/
def blankState : DashboardState :=
  { tasks := []
    newTask := "   "
    analytics := none
    focusPatterns := none
    darkMode := false
    activeTab := "today" }

/-- Witness for C7: a whitespace-only input is rejected by both layers. -/
theorem C7_blank_rejected_witness :
    addTask blankState task0 = (blankState, false) ∧
      createTask 0 blankState.newTask 0 1 [] defaultProfile
        = Except.error CreateError.invalidInput :=
  C7_blank_rejected blankState task0 (by decide) 0 0 1 [] defaultProfile

/-! ### Claim C8 — the 7-day analytics window -/

theorem sessionCounted_true {o : Nat} {now : Int} {s : FocusSession}
    (ho : s.owner = o) (hs : s.sstatus = SessionStatus.completed)
    {e : Int} (he : s.ended_at = some e) (h1 : now - 7 * 86400 ≤ e)
    (h2 : e ≤ now) : sessionCounted o now s = true := by
  simp [sessionCounted, ho, hs, he]
  omega

theorem sessionCounted_false_out {o : Nat} {now : Int} {s : FocusSession}
    {e : Int} (he : s.ended_at = some e)
    (hout : e < now - 7 * 86400 ∨ now < e) :
    sessionCounted o now s = false := by
  rcases hout with hlt | hgt
  all_goals simp [sessionCounted, he]
  all_goals intros
  all_goals omega

theorem sessionCounted_false_status (o : Nat) (now : Int) (s : FocusSession)
    (h : s.sstatus ≠ SessionStatus.completed) :
    sessionCounted o now s = false := by
  unfold sessionCounted
  have hb : (s.sstatus == SessionStatus.completed) = false := by
    simpa using h
  rw [hb]
  simp

theorem total7d_cons_counted (o : Nat) (now : Int) (s : FocusSession)
    (hist : List FocusSession) (tasks : List Task)
    (h : sessionCounted o now s = true) :
    (summarize o (s :: hist) tasks now).total_focus_minutes_7d
      = s.duration_minutes
        + (summarize o hist tasks now).total_focus_minutes_7d := by
  simp [summarize, List.filter_cons, h]

theorem total7d_cons_skipped (o : Nat) (now : Int) (s : FocusSession)
    (hist : List FocusSession) (tasks : List Task)
    (h : sessionCounted o now s = false) :
    (summarize o (s :: hist) tasks now).total_focus_minutes_7d
      = (summarize o hist tasks now).total_focus_minutes_7d := by
  simp [summarize, List.filter_cons, h]

/-- Claim C8: `total_focus_minutes_7d` sums `duration_minutes` over
exactly the completed sessions whose `ended_at` lies in the closed window
`[now − 7d, now]` measured from `now`: a session ending exactly at
`now − 7d` or at `now` is counted, one ending at `now − 7d − 1s` or at
any point outside the window is not, and sessions that are not completed
are never counted. -/
theorem C8_window_bounds (o : Nat) (hist : List FocusSession)
    (tasks : List Task) (now : Int) (s : FocusSession) (ho : s.owner = o)
    (hs : s.sstatus = SessionStatus.completed) :
    (s.ended_at = some now →
      (summarize o (s :: hist) tasks now).total_focus_minutes_7d
        = s.duration_minutes
          + (summarize o hist tasks now).total_focus_minutes_7d) ∧
    (s.ended_at = some (now - 7 * 86400) →
      (summarize o (s :: hist) tasks now).total_focus_minutes_7d
        = s.duration_minutes
          + (summarize o hist tasks now).total_focus_minutes_7d) ∧
    (s.ended_at = some (now - 7 * 86400 - 1) →
      (summarize o (s :: hist) tasks now).total_focus_minutes_7d
        = (summarize o hist tasks now).total_focus_minutes_7d) ∧
    (∀ e, s.ended_at = some e → e < now - 7 * 86400 ∨ now < e →
      (summarize o (s :: hist) tasks now).total_focus_minutes_7d
        = (summarize o hist tasks now).total_focus_minutes_7d) ∧
    (∀ s2 : FocusSession, s2.sstatus ≠ SessionStatus.completed →
      (summarize o (s2 :: hist) tasks now).total_focus_minutes_7d
        = (summarize o hist tasks now).total_focus_minutes_7d) := by
  refine ⟨?_, ?_, ?_, ?_, ?_⟩
  · intro he
    exact total7d_cons_counted o now s hist tasks
      (sessionCounted_true ho hs he (by omega) (by omega))
  · intro he
    exact total7d_cons_counted o now s hist tasks
      (sessionCounted_true ho hs he (by omega) (by omega))
  · intro he
    exact total7d_cons_skipped o now s hist tasks
      (sessionCounted_false_out he (by omega))
  · intro e he hout
    exact total7d_cons_skipped o now s hist tasks
      (sessionCounted_false_out he hout)
  · intro s2 h2
    exact total7d_cons_skipped o now s2 hist tasks
      (sessionCounted_false_status o now s2 h2)

/-- A completed sample session ending exactly one second before the
7-day window opens. -/
def sessEarly : FocusSession :=
  { id := 0
    owner := 0
    task_id := none
    started_at := 0 - 7 * 86400 - 3600
    ended_at := some (0 - 7 * 86400 - 1)
    sstatus := SessionStatus.completed
    duration_minutes := 30
    productivity := 1/2 }

/-- Witness for C8: the session ending at exactly `now − 7d − 1s` does
not contribute to the 7-day focus minutes. -/
theorem C8_window_bounds_witness :
    (summarize 0 [sessEarly] [] 0).total_focus_minutes_7d
      = (summarize 0 [] [] 0).total_focus_minutes_7d :=
  (C8_window_bounds 0 [] [] 0 sessEarly rfl rfl).2.2.1 rfl

/-! ### Claim C10 — the schedule view shows at most 8 tasks -/

/-- Claim C10: the "Smart Scheduled Tasks" view renders exactly the first
8 elements of the pending-task list — never more than 8 entries, every
displayed task is pending, and (for duplicate-free pending lists) a
pending task ranked ninth or later is not displayed. -/
theorem C10_display_cap (tasks : List Task) :
    displayedTasks tasks = (pendingTasks tasks).take 8 ∧
    (displayedTasks tasks).length ≤ 8 ∧
    (∀ t ∈ displayedTasks tasks, t ∈ pendingTasks tasks) ∧
    ((pendingTasks tasks).Nodup →
      ∀ i t, 8 ≤ i → (pendingTasks tasks)[i]? = some t →
        t ∉ displayedTasks tasks) := by
  refine ⟨rfl, ?_, ?_, ?_⟩
  · simp only [displayedTasks, List.length_take]
    exact Nat.min_le_left 8 (pendingTasks tasks).length
  · intro t ht
    exact (List.take_sublist 8 (pendingTasks tasks)).subset ht
  · intro hnd i t hi hget ht
    obtain ⟨j, hj⟩ := List.mem_iff_getElem?.mp ht
    obtain ⟨hjL, hjv⟩ := List.getElem?_eq_some_iff.mp hj
    have hj8 : j < 8 := by
      have hlen := hjL
      simp only [displayedTasks, List.length_take, Nat.lt_min] at hlen
      exact hlen.1
    have hpj : (pendingTasks tasks)[j]? = some t := by
      rw [← List.getElem?_take_of_lt hj8]
      exact hj
    obtain ⟨hiL, hiv⟩ := List.getElem?_eq_some_iff.mp hget
    obtain ⟨hjL2, hjv2⟩ := List.getElem?_eq_some_iff.mp hpj
    have heq : (pendingTasks tasks)[i] = (pendingTasks tasks)[j] :=
      hiv.trans hjv2.symm
    have : i = j := (hnd.getElem_inj_iff).mp heq
    omega

/-- Witness for C10: with nine distinct pending tasks, the ninth-ranked
task is not displayed. -/
theorem C10_display_cap_witness :
    taskN 8 ∉ displayedTasks ((List.range 9).map taskN) :=
  (C10_display_cap ((List.range 9).map taskN)).2.2.2 (by decide) 8 (taskN 8)
    (by decide) (by decide)

/-! ### Claim C2 — the schedule is ordered by score with the spec's
tie-breaks -/

/-- Claim C2 (amended): along the schedule, scores are non-increasing: a
task with strictly higher score precedes one with lower score; for equal
scores the earlier (or set) `due_at` precedes, and for equal scores and
due dates the earlier `created_at` precedes.  Provided no two pending
tasks agree simultaneously on score, `due_at`, and `created_at`, the
order is independent of storage order. -/
theorem C2_total_order (p : FocusProfile) (now : Int) (ts : List Task) :
    (∀ (i j : Nat) (a b : Task), i < j →
        (schedule p now ts)[i]? = some a →
        (schedule p now ts)[j]? = some b →
        score b p now ≤ score a p now ∧
          (score a p now = score b p now → dueLE a.due_at b.due_at) ∧
          (score a p now = score b p now → a.due_at = b.due_at →
            a.created_at ≤ b.created_at)) ∧
    (∀ ts2 : List Task, ts.Perm ts2 →
        (∀ a ∈ ts, ∀ b ∈ ts,
          score a p now = score b p now → a.due_at = b.due_at →
            a.created_at = b.created_at → a = b) →
        schedule p now ts = schedule p now ts2) := by
  constructor
  · intro i j a b hij hi hj
    obtain ⟨hiL, hiv⟩ := List.getElem?_eq_some_iff.mp hi
    obtain ⟨hjL, hjv⟩ := List.getElem?_eq_some_iff.mp hj
    have hr : taskBefore p now a b := by
      have hpw := List.pairwise_iff_getElem.mp (schedule_sorted p now ts)
        i j hiL hjL hij
      rwa [hiv, hjv] at hpw
    refine ⟨?_, ?_, ?_⟩
    · rcases hr with h | ⟨e, _⟩
      · exact le_of_lt h
      · exact le_of_eq e.symm
    · intro he
      rcases hr with h | ⟨e, hd⟩
      · exact absurd he (ne_of_gt h)
      · rcases hd with hd | ⟨hq, _⟩
        · exact Or.inl hd
        · exact Or.inr hq
    · intro he hq
      rcases hr with h | ⟨e, hd⟩
      · exact absurd he (ne_of_gt h)
      · rcases hd with hd | ⟨_, hc⟩
        · exact absurd (hq ▸ hd) (dueLT_irrefl _)
        · exact hc
  · intro ts2 hperm hinj
    have h1 := schedule_perm p now ts
    have h2 : (pendingTasks ts).Perm (pendingTasks ts2) := hperm.filter _
    have h3 := schedule_perm p now ts2
    exact sorted_perm_eq_of_antisymmOn (h1.trans (h2.trans h3.symm))
      (schedule_sorted p now ts) (schedule_sorted p now ts2)
      (fun a ha b hb rab rba => by
        have hka := taskBefore_antisymm_key p now rab rba
        have haa : a ∈ ts := List.mem_of_mem_filter (h1.mem_iff.mp ha)
        have hbb : b ∈ ts := List.mem_of_mem_filter (h1.mem_iff.mp hb)
        exact hinj a haa b hbb hka.1 hka.2.1 hka.2.2)

/-- A sample pending task with the earlier creation time. -/
def wTask1 : Task :=
  { task0 with id := 1 }

/-- A sample pending task identical in score and due date but created
later. -/
def wTask2 : Task :=
  { task0 with id := 2, created_at := 10 }

theorem taskBefore_w12 : taskBefore defaultProfile 0 wTask1 wTask2 :=
  Or.inr ⟨rfl, Or.inr ⟨rfl, by decide⟩⟩

theorem not_taskBefore_w21 : ¬taskBefore defaultProfile 0 wTask2 wTask1 := by
  intro h
  rcases h with hlt | ⟨e, hd | ⟨hq, hc⟩⟩
  · exact lt_irrefl _
      ((show score wTask1 defaultProfile 0 = score wTask2 defaultProfile 0
          from rfl) ▸ hlt)
  · exact hd.elim
  · exact absurd hc (by decide)

theorem schedule_w12 :
    schedule defaultProfile 0 [wTask1, wTask2] = [wTask1, wTask2] := by
  have hp : pendingTasks [wTask1, wTask2] = [wTask1, wTask2] := by decide
  show List.insertionSort (taskBefore defaultProfile 0)
    (pendingTasks [wTask1, wTask2]) = _
  rw [hp]
  show List.orderedInsert _ wTask1 (List.orderedInsert _ wTask2 []) = _
  rw [List.orderedInsert_nil]
  exact List.orderedInsert_of_le _ _ taskBefore_w12

theorem schedule_w21 :
    schedule defaultProfile 0 [wTask2, wTask1] = [wTask1, wTask2] := by
  have hp : pendingTasks [wTask2, wTask1] = [wTask2, wTask1] := by decide
  show List.insertionSort (taskBefore defaultProfile 0)
    (pendingTasks [wTask2, wTask1]) = _
  rw [hp]
  show List.orderedInsert _ wTask2 (List.orderedInsert _ wTask1 []) = _
  rw [List.orderedInsert_nil]
  simp only [List.orderedInsert]
  rw [if_neg not_taskBefore_w21]

theorem keyInj_w :
    ∀ a ∈ [wTask1, wTask2], ∀ b ∈ [wTask1, wTask2],
      score a defaultProfile 0 = score b defaultProfile 0 →
      a.due_at = b.due_at → a.created_at = b.created_at → a = b := by
  intro a ha b hb _ _ hc
  simp only [List.mem_cons, List.mem_singleton, List.not_mem_nil,
    or_false] at ha hb
  rcases ha with rfl | rfl <;> rcases hb with rfl | rfl
  · rfl
  · exact absurd hc (by decide)
  · exact absurd hc (by decide)
  · rfl

/-- Witness for C2 at two concrete equal-score tasks: the earlier-created
task keeps the first slot and the schedule does not depend on the storage
order of the two tasks. -/
theorem C2_total_order_witness :
    (score wTask2 defaultProfile 0 ≤ score wTask1 defaultProfile 0 ∧
      (score wTask1 defaultProfile 0 = score wTask2 defaultProfile 0 →
        dueLE wTask1.due_at wTask2.due_at) ∧
      (score wTask1 defaultProfile 0 = score wTask2 defaultProfile 0 →
        wTask1.due_at = wTask2.due_at →
        wTask1.created_at ≤ wTask2.created_at)) ∧
    schedule defaultProfile 0 [wTask1, wTask2]
      = schedule defaultProfile 0 [wTask2, wTask1] := by
  constructor
  · exact (C2_total_order defaultProfile 0 [wTask1, wTask2]).1 0 1 wTask1
      wTask2 (by decide) (by rw [schedule_w12]; rfl) (by rw [schedule_w12]; rfl)
  · exact (C2_total_order defaultProfile 0 [wTask1, wTask2]).2 [wTask2, wTask1]
      (List.Perm.swap wTask2 wTask1 []) keyInj_w

/-- A pending task that ties a twin on score, due date, and creation
time. -/
def cTaskA : Task :=
  { task0 with id := 3, title := "a" }

/-- The twin of `cTaskA`, differing only in id and title. -/
def cTaskB : Task :=
  { task0 with id := 4, title := "b" }

theorem taskBefore_cAB : taskBefore defaultProfile 0 cTaskA cTaskB :=
  Or.inr ⟨rfl, Or.inr ⟨rfl, le_refl _⟩⟩

theorem taskBefore_cBA : taskBefore defaultProfile 0 cTaskB cTaskA :=
  Or.inr ⟨rfl, Or.inr ⟨rfl, le_refl _⟩⟩

theorem schedule_cAB :
    schedule defaultProfile 0 [cTaskA, cTaskB] = [cTaskA, cTaskB] := by
  have hp : pendingTasks [cTaskA, cTaskB] = [cTaskA, cTaskB] := by decide
  show List.insertionSort (taskBefore defaultProfile 0)
    (pendingTasks [cTaskA, cTaskB]) = _
  rw [hp]
  show List.orderedInsert _ cTaskA (List.orderedInsert _ cTaskB []) = _
  rw [List.orderedInsert_nil]
  exact List.orderedInsert_of_le _ _ taskBefore_cAB

theorem schedule_cBA :
    schedule defaultProfile 0 [cTaskB, cTaskA] = [cTaskB, cTaskA] := by
  have hp : pendingTasks [cTaskB, cTaskA] = [cTaskB, cTaskA] := by decide
  show List.insertionSort (taskBefore defaultProfile 0)
    (pendingTasks [cTaskB, cTaskA]) = _
  rw [hp]
  show List.orderedInsert _ cTaskB (List.orderedInsert _ cTaskA []) = _
  rw [List.orderedInsert_nil]
  exact List.orderedInsert_of_le _ _ taskBefore_cBA

/-- Counterexample to C2 as stated: with two pending tasks that agree on
score, due date, and creation time (differing only in id and title), the
scheduler's deterministic tie-breaks are exhausted and the resulting
order does follow the storage order, so "the order never depends on
storage order" fails. -/
theorem C2_total_order_counterexample :
    [cTaskA, cTaskB].Perm [cTaskB, cTaskA] ∧
      schedule defaultProfile 0 [cTaskA, cTaskB]
        ≠ schedule defaultProfile 0 [cTaskB, cTaskA] := by
  refine ⟨List.Perm.swap cTaskB cTaskA [], ?_⟩
  rw [schedule_cAB, schedule_cBA]
  decide

/-! ### Claim C1 — the created task's displayed position -/

/-- An existing pending urgent task (score 19/40 at the sample state). -/
def c1Old : Task :=
  { task0 with id := 5, title := "old", priority := Priority.urgent }

/-- The newly created low-priority task (score 17/80 at the sample
state). -/
def c1New : Task :=
  { task0 with
    id := 6
    title := "new"
    priority := Priority.low
    created_at := 10 }

/-- A dashboard state holding the urgent task and a non-blank input. -/
def c1State : DashboardState :=
  { tasks := [c1Old]
    newTask := "pay rent"
    analytics := none
    focusPatterns := none
    darkMode := false
    activeTab := "today" }

theorem score_c1_lt :
    score c1New defaultProfile 0 < score c1Old defaultProfile 0 := by
  norm_num [score, urgency, priorityWeight, focusAlign, c1New, c1Old, task0,
    defaultProfile]

theorem not_taskBefore_c1 : ¬taskBefore defaultProfile 0 c1New c1Old := by
  intro h
  rcases h with hlt | ⟨e, _⟩
  · exact absurd hlt (not_lt.mpr (le_of_lt score_c1_lt))
  · exact absurd e (ne_of_lt score_c1_lt)

theorem schedule_c1 :
    schedule defaultProfile 0 [c1New, c1Old] = [c1Old, c1New] := by
  have hp : pendingTasks [c1New, c1Old] = [c1New, c1Old] := by decide
  show List.insertionSort (taskBefore defaultProfile 0)
    (pendingTasks [c1New, c1Old]) = _
  rw [hp]
  show List.orderedInsert _ c1New (List.orderedInsert _ c1Old []) = _
  rw [List.orderedInsert_nil]
  simp only [List.orderedInsert]
  rw [if_neg not_taskBefore_c1]

/-- Claim C1: at this concrete input the frontend `addTask` prepends the
created low-score task to the front of the displayed list, while the
Scheduler's ordering of the same pending set puts it second, behind the
higher-scored existing task — so the displayed list is not the
Scheduler's ordering. -/
theorem C1_frontend_prepends :
    (addTask c1State c1New).1.tasks = [c1New, c1Old] ∧
    displayedTasks (addTask c1State c1New).1.tasks = [c1New, c1Old] ∧
    schedule defaultProfile 0 ((addTask c1State c1New).1.tasks)
      = [c1Old, c1New] ∧
    (addTask c1State c1New).1.tasks
      ≠ schedule defaultProfile 0 ((addTask c1State c1New).1.tasks) := by
  have h1 : (addTask c1State c1New).1.tasks = [c1New, c1Old] := by decide
  refine ⟨h1, ?_, ?_, ?_⟩
  · rw [h1]
    decide
  · rw [h1]
    exact schedule_c1
  · rw [h1, schedule_c1]
    decide

end FocusFlow
